import Mathlib

/-!
Verification development for the STL debugging helpers of `source/lib/debug_stl.cpp`
(0 A.D. repository): the in-place type-name simplifier `stl_simplify_name` and the
container-introspection dispatcher `stl_get_container_info` with its per-container
adapter classes (`Any_deque`, `Any_list`, `Any_map`, `Any_vector`, ...).

Modelling conventions:
* C strings become `List Char`; the terminating NUL is implicit (end of list).
* Machine addresses and sizes become `Nat`; `size_t` wraparound is modelled
  explicitly where the source can actually wrap (`wsub64`).
* The external primitives the source calls into (`debug_is_bogus_pointer`,
  `match_wildcard`) are black boxes per the architecture, so they are taken as
  function parameters and all theorems quantify over them.
* The build configuration modelled is the Dinkumware one (`STL_DINKUMWARE != 0`,
  no `HAVE_STL_HASH`/`HAVE_STL_SLIST`, not the VS2005 early-out), which is the
  configuration all the adapter-specific code in the file targets.
-/

namespace DebugStl

/-! ## Name simplifier: `stl_simplify_name`

The C function scans the buffer left to right with a `nesting` counter and an
else-if chain of pattern rules (`REPLACE`/`STRIP` macros plus hand-written
rules).  The scan state is: the remaining input (`src`, whose head is the
current character), the previously consumed source character (`prev`, i.e.
`src[-1]`; `none` exactly when `src == name`), the `nesting` counter, the output
written so far (`out`, i.e. the characters between `name` and `dst`), and a
high-water mark `hw` recording one past the largest index ever written through
`dst` (including the final NUL), which models the in-place write extent.

Consumption counts per rule follow the source exactly: the `REPLACE`/`STRIP`
macros advance `src` by `sizeof(what)-1-1` and the loop preincrements, consuming
exactly the matched pattern; the three hand-written rules (`"::_Node"`,
`"std::allocator<"`, `"std::less<"`) advance by the full pattern length before
the preincrement, consuming the pattern plus one further character.  Reads past
the terminator (possible after those rules when the pattern ends the string)
are modelled as end of input.
-/

def pNode : List Char := "::_Node".toList
def pUShort : List Char := "unsigned short".toList
def pUInt : List Char := "unsigned int".toList
def pU64 : List Char := "unsigned __int64".toList
def pComma0 : List Char := ",0> ".toList
def pListNod : List Char := "std::_List_nod".toList
def pTreeNod : List Char := "std::_Tree_nod".toList
def pBStrChar : List Char := "std::basic_string<char,".toList
def pBStrWChar : List Char := "std::basic_string<unsigned short,".toList
def pCTraits : List Char := "std::char_traits<char>,".toList
def pWCTraits : List Char := "std::char_traits<unsigned short>,".toList
def pTmap : List Char := "std::_Tmap_traits".toList
def pTset : List Char := "std::_Tset_traits".toList
def pAlloc : List Char := "std::allocator<".toList
def pLess : List Char := "std::less<".toList
def pStd : List Char := "std::".toList

def rU16 : List Char := "u16".toList
def rUInt : List Char := "uint".toList
def rU64 : List Char := "u64".toList
def rList : List Char := "list".toList
def rMap : List Char := "map".toList
def rString : List Char := "string<".toList
def rWString : List Char := "wstring<".toList

/-- The source character that becomes `src[-1]` after consuming `k` characters
of `src` (the `\0`-fallback covers reads past the terminator). -/
def prevAt (src : List Char) (k : Nat) : Option Char :=
  some ((src.get? (k-1)).getD (Char.ofNat 0))

/-- `src != name && src[-1] != c` (used by the `"::_Node"` rule with `c = ' '`). -/
def prevIsNot (prev : Option Char) (c : Char) : Bool :=
  match prev with
  | some p => p != c
  | none => false

/-- `src != name && src[-1] == ','` (comma removal in the allocator/less rules). -/
def prevIsComma (prev : Option Char) : Bool :=
  prev == some ','

/-- The scan loop of `stl_simplify_name`.  `fuel` is an upper bound on the
number of remaining characters (every iteration consumes at least one, so
`fuel = src.length` at the top level never runs out).  Returns the final output
together with the high-water write mark. -/
def simplifyGo : Nat → Int → Option Char → List Char → List Char → Nat → List Char × Nat
  | 0, _, _, _, out, hw => (out, max hw (out.length + 1))
  | _+1, _, _, [], out, hw => (out, max hw (out.length + 1))
  | f+1, nesting, prev, c :: rest, out, hw =>
    if nesting ≠ 0 then
      if c = '<' then simplifyGo f (nesting+1) (some c) rest out hw
      else if c = '>' then simplifyGo f (nesting-1) (some c) rest out hw
      else simplifyGo f nesting (some c) rest out hw
    else if pNode.isPrefixOf (c :: rest) then
      simplifyGo f 0 (prevAt (c :: rest) 8) ((c :: rest).drop 8)
        (if prevIsNot prev ' ' then out ++ [' '] else out)
        (if prevIsNot prev ' ' then max hw (out.length + 1) else hw)
    else if pUShort.isPrefixOf (c :: rest) then
      simplifyGo f 0 (prevAt (c :: rest) 14) ((c :: rest).drop 14) (out ++ rU16) (max hw (out.length + 3))
    else if pUInt.isPrefixOf (c :: rest) then
      simplifyGo f 0 (prevAt (c :: rest) 12) ((c :: rest).drop 12) (out ++ rUInt) (max hw (out.length + 4))
    else if pU64.isPrefixOf (c :: rest) then
      simplifyGo f 0 (prevAt (c :: rest) 16) ((c :: rest).drop 16) (out ++ rU64) (max hw (out.length + 3))
    else if pComma0.isPrefixOf (c :: rest) then
      simplifyGo f 0 (prevAt (c :: rest) 4) ((c :: rest).drop 4) out hw
    else if c ≠ 's' then
      simplifyGo f 0 (some c) rest (out ++ [c]) (max hw (out.length + 1))
    else if pListNod.isPrefixOf (c :: rest) then
      simplifyGo f 0 (prevAt (c :: rest) 14) ((c :: rest).drop 14) (out ++ rList) (max hw (out.length + 4))
    else if pTreeNod.isPrefixOf (c :: rest) then
      simplifyGo f 0 (prevAt (c :: rest) 14) ((c :: rest).drop 14) (out ++ rMap) (max hw (out.length + 3))
    else if pBStrChar.isPrefixOf (c :: rest) then
      simplifyGo f 0 (prevAt (c :: rest) 23) ((c :: rest).drop 23) (out ++ rString) (max hw (out.length + 7))
    else if pBStrWChar.isPrefixOf (c :: rest) then
      simplifyGo f 0 (prevAt (c :: rest) 33) ((c :: rest).drop 33) (out ++ rWString) (max hw (out.length + 8))
    else if pCTraits.isPrefixOf (c :: rest) then
      simplifyGo f 0 (prevAt (c :: rest) 23) ((c :: rest).drop 23) out hw
    else if pWCTraits.isPrefixOf (c :: rest) then
      simplifyGo f 0 (prevAt (c :: rest) 33) ((c :: rest).drop 33) out hw
    else if pTmap.isPrefixOf (c :: rest) then
      simplifyGo f 0 (prevAt (c :: rest) 17) ((c :: rest).drop 17) out hw
    else if pTset.isPrefixOf (c :: rest) then
      simplifyGo f 0 (prevAt (c :: rest) 17) ((c :: rest).drop 17) out hw
    else if pAlloc.isPrefixOf (c :: rest) then
      simplifyGo f 1 (prevAt (c :: rest) 16) ((c :: rest).drop 16)
        (if prevIsComma prev then out.dropLast else out) hw
    else if pLess.isPrefixOf (c :: rest) then
      simplifyGo f 1 (prevAt (c :: rest) 11) ((c :: rest).drop 11)
        (if prevIsComma prev then out.dropLast else out) hw
    else if pStd.isPrefixOf (c :: rest) then
      simplifyGo f 0 (prevAt (c :: rest) 5) ((c :: rest).drop 5) out hw
    else
      simplifyGo f 0 (some c) rest (out ++ [c]) (max hw (out.length + 1))

/-- `stl_simplify_name`, as a function from the input string to the rewritten
string (the C function rewrites in place; the write extent is tracked by
`stl_simplify_hw`). -/
def stl_simplify_name (s : List Char) : List Char :=
  (simplifyGo s.length 0 none s [] 0).1

/-- One past the largest buffer index `stl_simplify_name` writes (its final
NUL included). -/
def stl_simplify_hw (s : List Char) : Nat :=
  (simplifyGo s.length 0 none s [] 0).2

/-- The position in the input at which a discard phase entered with counter `d`
ends, written from the specification: count each opening angle bracket as +1
and each closing one as -1; the phase ends at the closing bracket on which the
counter returns to 0, and the returned value is the suffix after that bracket
(`none` when the brackets never balance). -/
def findMatch : Nat → List Char → Option (List Char)
  | _, [] => none
  | d, c :: t =>
    if c = '<' then findMatch (d+1) t
    else if c = '>' then (if d = 1 then some t else findMatch (d-1) t)
    else findMatch d t

/-! ## Bit-pattern validator: `container_valid` -/

/-- Basic sanity checks shared by all containers.  `isBogus` is the external
`debug_is_bogus_pointer` primitive (a black box to this core), taken as a
parameter. -/
def container_valid (isBogus : Nat → Bool) (front : Nat) (el_count : Nat) : Bool :=
  if el_count > 0x1000000 then false
  else if isBogus front then false
  else true

/-! ## Container adapters

Each `Any_*` class reinterprets the inspected memory as the `int` instantiation
of the corresponding Dinkumware container.  The reinterpreted views are
modelled as structures holding the fields the adapter code reads; raw machine
addresses are `Nat`. -/

/-- the fields of `std::deque<int>` that `Any_deque` reads: `_Map` (bucket
index to bucket base address), `_Mapsize`, `_Myoff`, `_Mysize`. -/
structure DequeRepr where
  mapArr : Nat → Nat
  mapsize : Nat
  off : Nat
  mysize : Nat

/-- `MAX(16 / el_size, 1)`, the number of elements per bucket (see `_DEQUESIZ`). -/
def el_per_bucket (el_size : Nat) : Nat := max (16 / el_size) 1

/-- `Any_deque::get_item`: address of element `i` for real element size `el_size`. -/
def Any_deque_get_item (d : DequeRepr) (i : Nat) (el_size : Nat) : Nat :=
  let el_per := el_per_bucket el_size
  let bucket_idx := i / el_per
  let idx_in_bucket := i - bucket_idx * el_per
  d.mapArr bucket_idx + idx_in_bucket * el_size

/-- `Any_deque::el_count`: the reported `size()` (`el_size` unused). -/
def Any_deque_el_count (d : DequeRepr) (el_size : Nat) : Nat := d.mysize

/-- address of native `front()` of the `int` instantiation: the element at
index `_Myoff` under the 4-byte element layout. -/
def Any_deque_front (d : DequeRepr) : Nat := Any_deque_get_item d d.off 4

/-- `Any_deque::valid`. -/
def Any_deque_valid (isBogus : Nat → Bool) (d : DequeRepr) (el_size : Nat) : Bool :=
  let cnt := Any_deque_el_count d el_size
  if cnt ≠ 0 ∧ container_valid isBogus (Any_deque_front d) cnt = false then false
  else if d.off ≥ el_per_bucket el_size then false
  else if d.mysize > d.mapsize * el_per_bucket el_size then false
  else true

/-- a `std::list<int>` node: next pointer and address of the stored value. -/
structure ListNode where
  next : Nat
  valAddr : Nat

/-- the parts of `std::list<int>` that `Any_list` reads: the node heap, the
first element node (`begin()`), and the reported size. -/
structure ListRepr where
  nodes : Nat → ListNode
  first : Nat
  mysize : Nat

def Any_list_el_count (l : ListRepr) (el_size : Nat) : Nat := l.mysize

/-- address of `front()`: the value slot of the begin node. -/
def Any_list_front (l : ListRepr) : Nat := (l.nodes l.first).valAddr

/-- `Any_list::valid`. -/
def Any_list_valid (isBogus : Nat → Bool) (l : ListRepr) (el_size : Nat) : Bool :=
  container_valid isBogus (Any_list_front l) (Any_list_el_count l el_size)

/-- a tree node of the Dinkumware red-black tree underlying `std::map`
(`_Left`, `_Parent`, `_Right`, value address).  `nilb` gives the byte holding
the `_Isnil` flag as a function of its offset relative to the flag position of
the `int` instantiation: the flag is stored after `_Myval`, so its actual
offset shifts with the real element size. -/
structure TreeNode where
  left : Nat
  parent : Nat
  right : Nat
  valAddr : Nat
  nilb : Int → Bool

/-- a node heap: node pointer to node contents. -/
abbrev TreeHeap := Nat → TreeNode

/-- `Any_map::_Isnil`: read the nil flag of node `p`, compensating for the
element-size difference (`p += el_size - sizeof(value_type)` with
`sizeof(std::pair<int,int>) = 8`). -/
def Any_map_Isnil (h : TreeHeap) (p : Nat) (el_size : Nat) : Bool :=
  (h p).nilb ((el_size : Int) - 8)

/-- the parts of `std::map<int,int>` that `Any_map` reads: node heap, head
node (whose `_Left` is `begin()`), reported size. -/
structure MapRepr where
  nodes : TreeHeap
  myhead : Nat
  mysize : Nat

/-- the node `begin()` points at: `_Myhead->_Left` (leftmost). -/
def Any_map_begin_ptr (m : MapRepr) : Nat := (m.nodes m.myhead).left

def Any_map_el_count (m : MapRepr) (el_size : Nat) : Nat := m.mysize

/-- `Any_map::valid`: validate the address of `*begin()` against the count. -/
def Any_map_valid (isBogus : Nat → Bool) (m : MapRepr) (el_size : Nat) : Bool :=
  container_valid isBogus ((m.nodes (Any_map_begin_ptr m)).valAddr) (Any_map_el_count m el_size)

/-- the first `while` loop of `Any_map::iter::advance`: descend `_Left` links
while the left child is not nil.  `fuel` bounds the number of iterations (the
C loop walks a finite tree). -/
def Any_map_subtree_min (h : TreeHeap) (el_size : Nat) : Nat → Nat → Nat
  | 0, p => p
  | f+1, p =>
    if Any_map_Isnil h (h p).left el_size = false then Any_map_subtree_min h el_size f (h p).left
    else p

/-- the second `while` loop of `Any_map::iter::advance` together with the
final `_Ptr = _Pnode` assignment: climb while the current node is the right
child of a non-nil parent; the result is the last parent examined. -/
def Any_map_climb (h : TreeHeap) (el_size : Nat) : Nat → Nat → Nat
  | 0, ptr => (h ptr).parent
  | f+1, ptr =>
    let pnode := (h ptr).parent
    if Any_map_Isnil h pnode el_size = false ∧ ptr = (h pnode).right then
      Any_map_climb h el_size f pnode
    else pnode

/-- `Any_map::iter::advance (el_size)`. -/
def Any_map_advance (h : TreeHeap) (el_size : Nat) (fuel : Nat) (ptr : Nat) : Nat :=
  if Any_map_Isnil h ptr el_size = true then ptr
  else if Any_map_Isnil h (h ptr).right el_size = false then
    Any_map_subtree_min h el_size fuel (h ptr).right
  else Any_map_climb h el_size fuel ptr

/-- the leftmost node of the subtree rooted at `p`, written from the
specification words: follow left links while the left child is not the end
sentinel (`isNil` is the sentinel-test capability). -/
def inorderLeftmost (h : TreeHeap) (isNil : Nat → Bool) : Nat → Nat → Nat
  | 0, p => p
  | f+1, p => if isNil (h p).left then p else inorderLeftmost h isNil f (h p).left

/-- the nearest ancestor of which the start node lies in the left subtree,
written from the specification words: climb parent links while the current
node is the right child of its (non-sentinel) parent; the result is the parent
reached when the climb stops. -/
def inorderClimb (h : TreeHeap) (isNil : Nat → Bool) : Nat → Nat → Nat
  | 0, p => (h p).parent
  | f+1, p =>
    if isNil ((h p).parent) = false ∧ p = (h ((h p).parent)).right then
      inorderClimb h isNil f ((h p).parent)
    else (h p).parent

/-- the in-order successor step as the specification words it: the sentinel
flag is consulted first and the cursor stays put on the end sentinel;
otherwise go to the leftmost node of the right subtree if that subtree is not
the sentinel, else climb to the nearest ancestor of which the current node
lies in the left subtree. -/
def inorderSuccessor (h : TreeHeap) (isNil : Nat → Bool) (fuel : Nat) (p : Nat) : Nat :=
  if isNil p then p
  else if isNil ((h p).right) = false then inorderLeftmost h isNil fuel ((h p).right)
  else inorderClimb h isNil fuel p

/-- `std::set<int>` shares the tree representation. -/
def Any_set_el_count (m : MapRepr) (el_size : Nat) : Nat := m.mysize

/-- `Any_set::valid` (the source duplicates the map logic rather than sharing it). -/
def Any_set_valid (isBogus : Nat → Bool) (m : MapRepr) (el_size : Nat) : Bool :=
  container_valid isBogus ((m.nodes (Any_map_begin_ptr m)).valAddr) (Any_set_el_count m el_size)

/-- the fields of `std::vector<int>`: `_Myfirst`, `_Mylast`, `_Myend` as byte
addresses. -/
structure VectorRepr where
  first : Nat
  last : Nat
  endcap : Nat

/-- native `size()` of the `int` instantiation: pointer difference in 4-byte
elements. -/
def Any_vector_size (v : VectorRepr) : Nat := (v.last - v.first) / 4

/-- native `capacity()` of the `int` instantiation. -/
def Any_vector_capacity (v : VectorRepr) : Nat := (v.endcap - v.first) / 4

/-- `Any_vector::el_count`: `size() * 4 / el_size` (the byte-range bookkeeping
was computed against the 4-byte internal element type). -/
def Any_vector_el_count (v : VectorRepr) (el_size : Nat) : Nat :=
  Any_vector_size v * 4 / el_size

/-- address of `front()`: `_Myfirst`. -/
def Any_vector_front (v : VectorRepr) : Nat := v.first

/-- address of `back()`: one `int` element before `_Mylast` (addresses below 4
truncate at 0; the C computes a wrapped pointer there). -/
def Any_vector_back (v : VectorRepr) : Nat := v.last - 4

/-- `Any_vector::valid`. -/
def Any_vector_valid (isBogus : Nat → Bool) (v : VectorRepr) (el_size : Nat) : Bool :=
  let cnt := Any_vector_el_count v el_size
  if cnt ≠ 0 ∧ container_valid isBogus (Any_vector_front v) cnt = false then false
  else if Any_vector_size v > Any_vector_capacity v then false
  else if Any_vector_front v > Any_vector_back v then false
  else true

/-- the fields of `std::string` that `Any_basic_string` reads: the `c_str()`
address, `_Mysize`, `_Myres`. -/
structure StringRepr where
  cstr : Nat
  mysize : Nat
  myres : Nat

/-- `size_t` subtraction with 64-bit wraparound (used for `(16/el_size)-1`,
which wraps when `el_size > 16`). -/
def wsub64 (a b : Nat) : Nat := (a + 18446744073709551616 - b) % 18446744073709551616

def Any_basic_string_el_count (s : StringRepr) (el_size : Nat) : Nat := s.mysize

/-- `Any_basic_string::valid`. -/
def Any_basic_string_valid (isBogus : Nat → Bool) (s : StringRepr) (el_size : Nat) : Bool :=
  if container_valid isBogus s.cstr (Any_basic_string_el_count s el_size) = false then false
  else if s.myres < wsub64 (16 / el_size) 1 then false
  else if s.mysize > s.myres then false
  else true

/-! ### Container adapter aliases

`Any_queue` and `Any_stack` are empty classes derived from `Any_deque`;
`Any_multimap` from `Any_map`; `Any_multiset` from `Any_set`.  Every inherited
member therefore delegates unchanged. -/

def Any_queue_valid (isBogus : Nat → Bool) (d : DequeRepr) (el_size : Nat) : Bool :=
  Any_deque_valid isBogus d el_size

def Any_queue_el_count (d : DequeRepr) (el_size : Nat) : Nat :=
  Any_deque_el_count d el_size

def Any_stack_valid (isBogus : Nat → Bool) (d : DequeRepr) (el_size : Nat) : Bool :=
  Any_deque_valid isBogus d el_size

def Any_stack_el_count (d : DequeRepr) (el_size : Nat) : Nat :=
  Any_deque_el_count d el_size

def Any_multimap_valid (isBogus : Nat → Bool) (m : MapRepr) (el_size : Nat) : Bool :=
  Any_map_valid isBogus m el_size

def Any_multimap_el_count (m : MapRepr) (el_size : Nat) : Nat :=
  Any_map_el_count m el_size

def Any_multiset_valid (isBogus : Nat → Bool) (m : MapRepr) (el_size : Nat) : Bool :=
  Any_set_valid isBogus m el_size

def Any_multiset_el_count (m : MapRepr) (el_size : Nat) : Nat :=
  Any_set_el_count m el_size

/-! ## Generic iteration protocol -/

/-- the iterator value stored in `it_mem`, tagged by the container family it
belongs to (the C stores the raw bytes of `T::const_iterator`). -/
inductive Cursor where
  | deq (d : DequeRepr) (off : Nat)
  | lst (l : ListRepr) (ptr : Nat)
  | tree (m : MapRepr) (ptr : Nat)
  | vec (ptr : Nat)
  | str (ptr : Nat)

/-- a `DebugIterator`: dereference the cursor to the current element address
and advance by one element (`none` on a cursor of the wrong family, which the
dispatcher never produces). -/
def StepFun : Type := Cursor → Nat → Option (Nat × Cursor)

/-- the primary template `stl_iterator<T>` instantiated at a deque iterator:
native `operator*` (4-byte element layout) then native `operator++`.  This is
what `Any_queue`/`Any_stack` get, since the `Any_deque` specialization does not
apply to their distinct class types. -/
def stl_iterator_generic_deque : StepFun
  | Cursor.deq d off, _ => some (Any_deque_get_item d off 4, Cursor.deq d (off + 1))
  | _, _ => none

/-- the primary template at a list iterator: native deref and `_Next` link. -/
def stl_iterator_generic_list : StepFun
  | Cursor.lst l ptr, _ => some ((l.nodes ptr).valAddr, Cursor.lst l ((l.nodes ptr).next))
  | _, _ => none

/-- the primary template at a tree iterator: native deref, then the library
increment, whose compiled form performs the same in-order successor walk but
reads the nil flag at the `int` instantiation offset (offset 0, i.e.
`el_size = 8` in the offset convention of `Any_map_Isnil`). -/
def stl_iterator_generic_tree (F : Nat) : StepFun
  | Cursor.tree m ptr, _ =>
    some ((m.nodes ptr).valAddr, Cursor.tree m (Any_map_advance m.nodes 8 F ptr))
  | _, _ => none

/-- the primary template at a string iterator: char pointer, native `++`. -/
def stl_iterator_generic_string : StepFun
  | Cursor.str p, _ => some (p, Cursor.str (p + 1))
  | _, _ => none

/-- the `stl_iterator<Any_vector>` specialization: deref, then
`advance(el_size)` (pointer moved by `el_size` bytes). -/
def stl_iterator_vector : StepFun
  | Cursor.vec p, el_size => some (p, Cursor.vec (p + el_size))
  | _, _ => none

/-- the `stl_iterator<Any_deque>` specialization: `deref(el_size)` then native
`operator++`. -/
def stl_iterator_deque : StepFun
  | Cursor.deq d off, el_size => some (Any_deque_get_item d off el_size, Cursor.deq d (off + 1))
  | _, _ => none

/-- the `stl_iterator<Any_map>` specialization: deref, then `advance(el_size)`. -/
def stl_iterator_map (F : Nat) : StepFun
  | Cursor.tree m ptr, el_size =>
    some ((m.nodes ptr).valAddr, Cursor.tree m (Any_map_advance m.nodes el_size F ptr))
  | _, _ => none

/-! ## Dispatcher -/

/-- the container kinds of the pattern table (Dinkumware build, without the
optional hash/slist kinds). -/
inductive Kind where
  | deque
  | list
  | map
  | multimap
  | set
  | multiset
  | vector
  | basic_string
  | queue
  | stack
deriving DecidableEq

/-- the raw container memory, as reinterpreted by each adapter family
(the C casts one address to the respective `Any_*` classes; the projections
stand for those casts). -/
structure Blob where
  asDeque : DequeRepr
  asList : ListRepr
  asMap : MapRepr
  asSet : MapRepr
  asVector : VectorRepr
  asString : StringRepr

/-- the out-parameters of `stl_get_container_info`: `*el_count`,
`*el_iterator`, `it_mem`. -/
structure Outputs where
  el_count : Nat
  step : StepFun
  cursor : Cursor

/-- `t->el_count(el_size)` per kind (aliases inherit the aliased adapter). -/
def elCountFor (k : Kind) (b : Blob) (el_size : Nat) : Nat :=
  match k with
  | Kind.deque => Any_deque_el_count b.asDeque el_size
  | Kind.list => Any_list_el_count b.asList el_size
  | Kind.map => Any_map_el_count b.asMap el_size
  | Kind.multimap => Any_multimap_el_count b.asMap el_size
  | Kind.set => Any_set_el_count b.asSet el_size
  | Kind.multiset => Any_multiset_el_count b.asSet el_size
  | Kind.vector => Any_vector_el_count b.asVector el_size
  | Kind.basic_string => Any_basic_string_el_count b.asString el_size
  | Kind.queue => Any_queue_el_count b.asDeque el_size
  | Kind.stack => Any_stack_el_count b.asDeque el_size

/-- `t->valid(el_size)` per kind. -/
def validFor (isBogus : Nat → Bool) (k : Kind) (b : Blob) (el_size : Nat) : Bool :=
  match k with
  | Kind.deque => Any_deque_valid isBogus b.asDeque el_size
  | Kind.list => Any_list_valid isBogus b.asList el_size
  | Kind.map => Any_map_valid isBogus b.asMap el_size
  | Kind.multimap => Any_multimap_valid isBogus b.asMap el_size
  | Kind.set => Any_set_valid isBogus b.asSet el_size
  | Kind.multiset => Any_multiset_valid isBogus b.asSet el_size
  | Kind.vector => Any_vector_valid isBogus b.asVector el_size
  | Kind.basic_string => Any_basic_string_valid isBogus b.asString el_size
  | Kind.queue => Any_queue_valid isBogus b.asDeque el_size
  | Kind.stack => Any_stack_valid isBogus b.asDeque el_size

/-- `stl_iterator<Any_kind>` as instantiated by `get_container_info<Any_kind>`:
the specializations exist only for the exact types `Any_deque`, `Any_vector`,
`Any_map`; every other kind, the empty derived alias classes included, gets
the primary template. -/
def stepFor (F : Nat) (k : Kind) : StepFun :=
  match k with
  | Kind.deque => stl_iterator_deque
  | Kind.list => stl_iterator_generic_list
  | Kind.map => stl_iterator_map F
  | Kind.multimap => stl_iterator_generic_tree F
  | Kind.set => stl_iterator_generic_tree F
  | Kind.multiset => stl_iterator_generic_tree F
  | Kind.vector => stl_iterator_vector
  | Kind.basic_string => stl_iterator_generic_string
  | Kind.queue => stl_iterator_generic_deque
  | Kind.stack => stl_iterator_generic_deque

/-- `t->begin()` written into `it_mem`, per kind. -/
def beginFor (k : Kind) (b : Blob) : Cursor :=
  match k with
  | Kind.deque => Cursor.deq b.asDeque b.asDeque.off
  | Kind.list => Cursor.lst b.asList b.asList.first
  | Kind.map => Cursor.tree b.asMap (Any_map_begin_ptr b.asMap)
  | Kind.multimap => Cursor.tree b.asMap (Any_map_begin_ptr b.asMap)
  | Kind.set => Cursor.tree b.asSet (Any_map_begin_ptr b.asSet)
  | Kind.multiset => Cursor.tree b.asSet (Any_map_begin_ptr b.asSet)
  | Kind.vector => Cursor.vec b.asVector.first
  | Kind.basic_string => Cursor.str b.asString.cstr
  | Kind.queue => Cursor.deq b.asDeque b.asDeque.off
  | Kind.stack => Cursor.deq b.asDeque b.asDeque.off

/-- `get_container_info<T>`: writes `*el_count`, `*el_iterator` and the begin
iterator into `it_mem`, then returns `t->valid(el_size)`.  The outputs are
computed from the blob unconditionally; validity only decides the returned
flag. -/
def get_container_info (F : Nat) (isBogus : Nat → Bool) (k : Kind) (b : Blob)
    (el_size : Nat) : Outputs × Bool :=
  ({ el_count := elCountFor k b el_size, step := stepFor F k, cursor := beginFor k b },
   validFor isBogus k b el_size)

/-- the pattern table of the `STD_CONTAINER` lines, in source order; each
entry pairs the kind with its wildcard pattern. -/
def patternTable : List (Kind × String) :=
  [(Kind.deque, "std::deque<*>"),
   (Kind.list, "std::list<*>"),
   (Kind.map, "std::map<*>"),
   (Kind.multimap, "std::multimap<*>"),
   (Kind.set, "std::set<*>"),
   (Kind.multiset, "std::multiset<*>"),
   (Kind.vector, "std::vector<*>"),
   (Kind.basic_string, "std::basic_string<*>"),
   (Kind.queue, "std::queue<*>"),
   (Kind.stack, "std::stack<*>")]

/-- Modelled from the spec: the result codes are declared in `debug_stl.h`,
which is not among the sources here; the interface section requires 0 for
success and two distinct nonzero codes for the unknown-kind and
invalid-contents outcomes. -/
def STL_CNT_UNKNOWN : Int := -1

/-- Modelled from the spec: see `STL_CNT_UNKNOWN`. -/
def STL_CNT_INVALID : Int := -2

/-- `stl_get_container_info` (Dinkumware build, so without the VS2005
platform-compatibility early-out).  `mw` is the external `match_wildcard`
primitive and `isBogus` the external pointer probe, both black boxes taken as
parameters; `type_name` is the already-converted narrow type name; `outs0`
holds the previous contents of the out-parameters; `F` bounds the tree walks
inside step functions.  The else-if chain over the pattern table is the first
match in table order. -/
def stl_get_container_info (F : Nat) (mw : String → String → Bool)
    (isBogus : Nat → Bool) (type_name : String) (blob : Blob) (el_size : Nat)
    (outs0 : Outputs) : Int × Outputs :=
  match patternTable.find? (fun e => mw type_name e.2) with
  | none => (STL_CNT_UNKNOWN, outs0)
  | some e =>
    let r := get_container_info F isBogus e.1 blob el_size
    (if r.2 = true then 0 else STL_CNT_INVALID, r.1)

/-! ### Concrete fixtures (used by witnesses and counterexamples) -/

/-- a three-node search tree: nodes 1 < 2 < 3, root 2; every other pointer is
the end sentinel (nil flag set), whose `_Left` is the leftmost node 1. -/
def heapEx : TreeHeap := fun p =>
  if p = 1 then { left := 0, parent := 2, right := 0, valAddr := 10, nilb := fun _ => false }
  else if p = 2 then { left := 1, parent := 0, right := 3, valAddr := 20, nilb := fun _ => false }
  else if p = 3 then { left := 0, parent := 2, right := 0, valAddr := 30, nilb := fun _ => false }
  else { left := 1, parent := 2, right := 3, valAddr := 0, nilb := fun _ => true }

def mapEx : MapRepr := { nodes := heapEx, myhead := 0, mysize := 3 }

/-- a deque view with bucket `i` based at address `1000 + 100 * i`. -/
def dequeEx : DequeRepr := { mapArr := fun i => 1000 + 100 * i, mapsize := 4, off := 1, mysize := 3 }

def listEx : ListRepr := { nodes := fun _ => { next := 0, valAddr := 50 }, first := 0, mysize := 0 }

/-- a vector of two 4-byte elements at full capacity. -/
def vecEx : VectorRepr := { first := 0, last := 8, endcap := 8 }

/-- a corrupted vector: reported size 2 exceeds reported capacity 0. -/
def vecBadCap : VectorRepr := { first := 0, last := 8, endcap := 0 }

/-- a corrupted vector: front address 8 exceeds back address 4. -/
def vecBadFront : VectorRepr := { first := 8, last := 8, endcap := 16 }

def strEx : StringRepr := { cstr := 0, mysize := 0, myres := 15 }

def blobEx : Blob :=
  { asDeque := dequeEx, asList := listEx, asMap := mapEx, asSet := mapEx,
    asVector := vecEx, asString := strEx }

/-- stale out-parameter contents from before a dispatcher call. -/
def outs0Ex : Outputs := { el_count := 999, step := fun _ _ => none, cursor := Cursor.vec 77 }

end DebugStl

namespace DebugStl

/-! ## Theorems -/

/-! ### Helper lemmas about patterns and prefixes -/

theorem prefixOf_length_le :
    ∀ (p s : List Char), p.isPrefixOf s = true → p.length ≤ s.length := by
  intro p
  induction p with
  | nil => intro s h; simp
  | cons a tp ih =>
    intro s h
    cases s with
    | nil => simp [List.isPrefixOf] at h
    | cons b ts =>
      simp only [List.isPrefixOf, Bool.and_eq_true] at h
      have := ih ts h.2
      simp only [List.length_cons]
      omega

theorem not_isPrefixOf_head {a c : Char} (tp s : List Char) (h : c ≠ a) :
    (a :: tp).isPrefixOf (c :: s) = false := by
  have hb : (a == c) = false := by
    cases hab : a == c
    · rfl
    · exact absurd (eq_of_beq hab) (fun he => h he.symm)
  simp [List.isPrefixOf, hb]

theorem pNode_length : pNode.length = 7 := rfl
theorem pUShort_length : pUShort.length = 14 := rfl
theorem pUInt_length : pUInt.length = 12 := rfl
theorem pU64_length : pU64.length = 16 := rfl
theorem pComma0_length : pComma0.length = 4 := rfl
theorem pListNod_length : pListNod.length = 14 := rfl
theorem pTreeNod_length : pTreeNod.length = 14 := rfl
theorem pBStrChar_length : pBStrChar.length = 23 := rfl
theorem pBStrWChar_length : pBStrWChar.length = 33 := rfl
theorem pCTraits_length : pCTraits.length = 23 := rfl
theorem pWCTraits_length : pWCTraits.length = 33 := rfl
theorem pTmap_length : pTmap.length = 17 := rfl
theorem pTset_length : pTset.length = 17 := rfl
theorem pAlloc_length : pAlloc.length = 15 := rfl
theorem pLess_length : pLess.length = 10 := rfl
theorem pStd_length : pStd.length = 5 := rfl
theorem rU16_length : rU16.length = 3 := rfl
theorem rUInt_length : rUInt.length = 4 := rfl
theorem rU64_length : rU64.length = 3 := rfl
theorem rList_length : rList.length = 4 := rfl
theorem rMap_length : rMap.length = 3 := rfl
theorem rString_length : rString.length = 7 := rfl
theorem rWString_length : rWString.length = 8 := rfl

theorem pNode_nomatch {c : Char} (s : List Char) (h : c ≠ ':') :
    pNode.isPrefixOf (c :: s) = false :=
  not_isPrefixOf_head _ _ h

theorem pUShort_nomatch {c : Char} (s : List Char) (h : c ≠ 'u') :
    pUShort.isPrefixOf (c :: s) = false :=
  not_isPrefixOf_head _ _ h

theorem pUInt_nomatch {c : Char} (s : List Char) (h : c ≠ 'u') :
    pUInt.isPrefixOf (c :: s) = false :=
  not_isPrefixOf_head _ _ h

theorem pU64_nomatch {c : Char} (s : List Char) (h : c ≠ 'u') :
    pU64.isPrefixOf (c :: s) = false :=
  not_isPrefixOf_head _ _ h

theorem pComma0_nomatch {c : Char} (s : List Char) (h : c ≠ ',') :
    pComma0.isPrefixOf (c :: s) = false :=
  not_isPrefixOf_head _ _ h

/-! ### Length and write-extent invariants of the scan loop -/

theorem simplifyGo_length :
    ∀ (f : Nat) (n : Int) (p : Option Char) (src out : List Char) (hw : Nat),
    (simplifyGo f n p src out hw).1.length ≤ out.length + src.length := by
  intro f n p src out hw
  induction f, n, p, src, out, hw using simplifyGo.induct
  all_goals try simp only [simplifyGo]
  all_goals try simp [*]
  all_goals try have hp := prefixOf_length_le _ _ (by assumption)
  all_goals try simp only [pNode_length, pUShort_length, pUInt_length, pU64_length,
    pComma0_length, pListNod_length, pTreeNod_length, pBStrChar_length, pBStrWChar_length,
    pCTraits_length, pWCTraits_length, pTmap_length, pTset_length, pAlloc_length,
    pLess_length, pStd_length, List.length_cons] at hp
  all_goals try refine le_trans (by assumption) ?_
  all_goals repeat' split
  all_goals try simp [rU16_length, rUInt_length, rU64_length, rList_length, rMap_length,
    rString_length, rWString_length]
  all_goals omega

theorem simplifyGo_hw :
    ∀ (f : Nat) (n : Int) (p : Option Char) (src out : List Char) (hw : Nat) (B : Nat),
    hw ≤ B → out.length + src.length + 1 ≤ B →
    (simplifyGo f n p src out hw).2 ≤ B := by
  intro f n p src out hw
  induction f, n, p, src, out, hw using simplifyGo.induct
  all_goals intro B h1 h2
  all_goals try simp only [simplifyGo]
  all_goals try rename_i ih
  all_goals try simp [*]
  all_goals try have hp := prefixOf_length_le _ _ (by assumption)
  all_goals try simp only [pNode_length, pUShort_length, pUInt_length, pU64_length,
    pComma0_length, pListNod_length, pTreeNod_length, pBStrChar_length, pBStrWChar_length,
    pCTraits_length, pWCTraits_length, pTmap_length, pTset_length, pAlloc_length,
    pLess_length, pStd_length, List.length_cons] at hp
  all_goals try refine ih B ?_ ?_
  all_goals repeat' split
  all_goals try simp [rU16_length, rUInt_length, rU64_length, rList_length, rMap_length,
    rString_length, rWString_length]
  all_goals try simp only [List.length_cons, List.length_append, List.length_drop,
    List.length_dropLast, List.length_nil] at h2 ⊢
  all_goals omega

/-- Claim C7: the rewritten name is never longer than the input, the output is
terminated within the buffer, and no write lands past the input string's
extent: the high-water write index (the terminating NUL included, at one past
the last content index) is bounded by the input length plus one. -/
theorem stl_simplify_name_in_place_safe :
    ∀ s : List Char,
    (stl_simplify_name s).length ≤ s.length ∧ stl_simplify_hw s ≤ s.length + 1 := by
  intro s
  constructor
  · have h := simplifyGo_length s.length 0 none s [] 0
    simpa [stl_simplify_name] using h
  · have h := simplifyGo_hw s.length 0 none s [] 0 (s.length + 1) (by omega) (by simp)
    simpa [stl_simplify_hw] using h

/-! ### Identity of the scan on rule-free text -/

/-- On text containing none of the rule-initial characters, the scan copies
verbatim: every rule pattern starts with one of `:`, `,`, `u`, `s`, and the
discard counter stays 0. -/
theorem simplifyGo_copy :
    ∀ (f : Nat) (p : Option Char) (src out : List Char) (hw : Nat),
    src.length ≤ f →
    (∀ c, c ∈ src → c ≠ ':' ∧ c ≠ ',' ∧ c ≠ 'u' ∧ c ≠ 's') →
    (simplifyGo f 0 p src out hw).1 = out ++ src := by
  intro f
  induction f with
  | zero =>
    intro p src out hw hf hchars
    cases src with
    | nil => simp [simplifyGo]
    | cons c rest => simp at hf
  | succ f ih =>
    intro p src out hw hf hchars
    cases src with
    | nil => simp [simplifyGo]
    | cons c rest =>
      obtain ⟨hc1, hc2, hc3, hc4⟩ := hchars c (by simp)
      have hrest : ∀ x, x ∈ rest → x ≠ ':' ∧ x ≠ ',' ∧ x ≠ 'u' ∧ x ≠ 's' :=
        fun x hx => hchars x (by simp [hx])
      have hlen : rest.length ≤ f := by
        simp only [List.length_cons] at hf
        omega
      have hrec := ih (some c) rest (out ++ [c]) (max hw (out.length + 1)) hlen hrest
      simp only [simplifyGo]
      rw [pNode_nomatch rest hc1, pUShort_nomatch rest hc3, pUInt_nomatch rest hc3,
        pU64_nomatch rest hc3, pComma0_nomatch rest hc2]
      simp [hc4, hrec]

/-- Counterexample to claim C8 as stated: the simplifier is not idempotent.
One pass over "stdstd::::allocator<int> >" strips the inner namespace
qualifier and produces "std::allocator<int> >", which a second pass reduces
further (to " >"). -/
theorem stl_simplify_name_not_idempotent :
    stl_simplify_name (stl_simplify_name ("stdstd::::allocator<int> >".toList)) ≠
      stl_simplify_name ("stdstd::::allocator<int> >".toList) := by
  decide

/-- Amended claim C8: the simplifier is idempotent on strings free of the
rule-initial characters `:`, `,`, `u`, `s` (on which it acts as the
identity); it is not idempotent in general, because one pass can expose a
fresh rule pattern (see `stl_simplify_name_not_idempotent`). -/
theorem stl_simplify_name_idempotent_on_plain :
    ∀ s : List Char,
    (∀ c, c ∈ s → c ≠ ':' ∧ c ≠ ',' ∧ c ≠ 'u' ∧ c ≠ 's') →
    stl_simplify_name (stl_simplify_name s) = stl_simplify_name s := by
  intro s hs
  have hid : stl_simplify_name s = s := by
    unfold stl_simplify_name
    rw [simplifyGo_copy s.length none s [] 0 le_rfl hs]
    simp
  rw [hid]
  exact hid

/-- Witness for the amended claim C8 on a concrete pattern-free input. -/
theorem stl_simplify_name_idempotent_on_plain_witness :
    stl_simplify_name (stl_simplify_name ("abc<d>".toList)) =
      stl_simplify_name ("abc<d>".toList) :=
  stl_simplify_name_idempotent_on_plain ("abc<d>".toList) (by decide)

/-! ### The discard phase and bracket matching -/

theorem findMatch_length_lt :
    ∀ (r : List Char) (d : Nat) (rest : List Char),
    findMatch d r = some rest → rest.length < r.length := by
  intro r
  induction r with
  | nil => intro d rest hm; simp [findMatch] at hm
  | cons c t ih =>
    intro d rest hm
    simp only [findMatch] at hm
    by_cases h1 : c = '<'
    · rw [if_pos h1] at hm
      have := ih _ _ hm
      simp only [List.length_cons]
      omega
    · rw [if_neg h1] at hm
      by_cases h2 : c = '>'
      · rw [if_pos h2] at hm
        by_cases h3 : d = 1
        · rw [if_pos h3] at hm
          cases hm
          simp
        · rw [if_neg h3] at hm
          have := ih _ _ hm
          simp only [List.length_cons]
          omega
      · rw [if_neg h2] at hm
        have := ih _ _ hm
        simp only [List.length_cons]
        omega

/-- While the counter is positive the scan emits nothing and consumes exactly
up to the matching closing bracket (counting opening brackets +1 and closing
brackets -1 at arbitrary depth); it leaves discard mode with the counter back
at 0, the closing bracket as previous character, and the output untouched. -/
theorem simplifyGo_discard :
    ∀ (r : List Char) (d : Nat) (rest : List Char) (f : Nat) (p : Option Char)
      (out : List Char) (hw : Nat),
    findMatch (d + 1) r = some rest →
    simplifyGo (r.length - rest.length + f) ((d : Int) + 1) p r out hw =
      simplifyGo f 0 (some '>') rest out hw := by
  intro r
  induction r with
  | nil =>
    intro d rest f p out hw hm
    simp [findMatch] at hm
  | cons c t ih =>
    intro d rest f p out hw hm
    have hlt : rest.length < (c :: t).length := findMatch_length_lt _ _ _ hm
    simp only [List.length_cons] at hlt
    have hfl : (c :: t).length - rest.length + f = (t.length - rest.length + f) + 1 := by
      simp only [List.length_cons]
      omega
    rw [hfl]
    have hne : ((d : Int) + 1) ≠ 0 := by omega
    simp only [findMatch] at hm
    simp only [simplifyGo, if_pos hne]
    by_cases h1 : c = '<'
    · subst h1
      rw [if_pos rfl] at hm ⊢
      have happ := ih (d + 1) rest f (some '<') out hw hm
      have hcast : ((d : Int) + 1) + 1 = ((d + 1 : Nat) : Int) + 1 := by push_cast; ring
      rw [hcast]
      exact happ
    · rw [if_neg h1] at hm ⊢
      by_cases h2 : c = '>'
      · subst h2
        rw [if_pos rfl] at hm ⊢
        by_cases h3 : d = 0
        · subst h3
          have h31 : (0 + 1 : Nat) = 1 := rfl
          rw [if_pos h31] at hm
          cases hm
          have hz : ((0 : Nat) : Int) + 1 - 1 = 0 := by norm_num
          rw [hz]
          have hf : t.length - t.length + f = f := by omega
          rw [hf]
        · have h31 : (d + 1 : Nat) ≠ 1 := by omega
          rw [if_neg h31] at hm
          have happ := ih (d - 1) rest f (some '>') out hw (by
            have hh : d - 1 + 1 = d := by omega
            rw [hh]
            exact hm)
          have hcast : ((d : Int) + 1) - 1 = ((d - 1 : Nat) : Int) + 1 := by
            have hh : ((d - 1 : Nat) : Int) = (d : Int) - 1 := by
              have h1d : 1 ≤ d := by omega
              push_cast [h1d]
              ring
            omega
          rw [hcast]
          exact happ
      · rw [if_neg h2] at hm ⊢
        exact ih d rest f (some c) out hw hm

/-- Counterexample to claim C6 as stated: on the bracket-balanced input
"std::allocator<>x" the closing bracket matching the qualifier's opening
bracket is the character immediately after the qualifier, and "x" lies beyond
it; ending the discard exactly there would leave "x" as output (third
conjunct), but the rule consumes that character without counting it, the
counter never returns to 0, and the whole remainder is discarded: the output
is empty. -/
theorem stl_simplify_name_discard_overshoot :
    findMatch 1 (">x".toList) = some ("x".toList) ∧
    stl_simplify_name ("std::allocator<>x".toList) = [] ∧
    (simplifyGo 1 0 (some '>') ("x".toList) [] 0).1 = "x".toList := by
  decide

/-- Amended claim C6: stripping an allocator-qualifier or default-comparator
argument removes a preceding comma if present, enters discard mode with the
counter at 1, and consumes the first character of the argument without
counting it; provided that character is not an angle bracket, the discard
emits nothing and ends exactly at the closing bracket matching the
qualifier's opening bracket (counting every nesting depth, not at the first
closing bracket), where scanning resumes with the counter back at 0 (hence
never negative during a balanced discard). -/
theorem stl_simplify_name_discard_matching :
    ∀ (c : Char) (r rest : List Char) (f : Nat) (p : Option Char) (out : List Char) (hw : Nat),
    c ≠ '<' → c ≠ '>' → findMatch 1 (c :: r) = some rest →
    (simplifyGo (r.length - rest.length + f + 1) 0 p (pAlloc ++ c :: r) out hw =
      simplifyGo f 0 (some '>') rest (if prevIsComma p then out.dropLast else out) hw) ∧
    (simplifyGo (r.length - rest.length + f + 1) 0 p (pLess ++ c :: r) out hw =
      simplifyGo f 0 (some '>') rest (if prevIsComma p then out.dropLast else out) hw) := by
  intro c r rest f p out hw hc1 hc2 hm
  have hm' : findMatch 1 r = some rest := by
    simp only [findMatch] at hm
    rw [if_neg hc1, if_neg hc2] at hm
    exact hm
  have hdisc := simplifyGo_discard r 0 rest f (some c)
    (if prevIsComma p then out.dropLast else out) hw hm'
  have hcast : (((0 : Nat) : Int) + 1) = (1 : Int) := by norm_num
  rw [hcast] at hdisc
  constructor
  · have hstep : simplifyGo (r.length - rest.length + f + 1) 0 p (pAlloc ++ c :: r) out hw =
        simplifyGo (r.length - rest.length + f) 1 (some c) r
          (if prevIsComma p then out.dropLast else out) hw := rfl
    rw [hstep]
    exact hdisc
  · have hstep : simplifyGo (r.length - rest.length + f + 1) 0 p (pLess ++ c :: r) out hw =
        simplifyGo (r.length - rest.length + f) 1 (some c) r
          (if prevIsComma p then out.dropLast else out) hw := rfl
    rw [hstep]
    exact hdisc

/-- Witness for the amended claim C6 on a depth-2 argument: inside
"std::allocator<pair<u,v> >y" the first closing bracket does not end the
discard; it ends at the matching one, after which "y" is scanned normally. -/
theorem stl_simplify_name_discard_matching_witness :
    simplifyGo 12 0 none (pAlloc ++ 'p' :: "air<u,v> >y".toList) [] 0 =
      simplifyGo 1 0 (some '>') ("y".toList)
        (if prevIsComma none then ([] : List Char).dropLast else []) 0 :=
  (stl_simplify_name_discard_matching 'p' ("air<u,v> >y".toList) ("y".toList) 1 none [] 0
    (by decide) (by decide) (by decide)).1

/-- Claim C2: the bit-pattern validator returns false whenever the element
count exceeds 2^24 (regardless of the address), returns false whenever the
address fails the pointer-plausibility probe (regardless of the count), and
returns true exactly when neither rejection applies. -/
theorem container_valid_characterization :
    ∀ (isBogus : Nat → Bool) (front el_count : Nat),
    (el_count > 2 ^ 24 → container_valid isBogus front el_count = false) ∧
    (isBogus front = true → container_valid isBogus front el_count = false) ∧
    (container_valid isBogus front el_count = true ↔
      el_count ≤ 2 ^ 24 ∧ isBogus front = false) := by
  intro isB f n
  have h24 : (0x1000000 : Nat) = 2 ^ 24 := by norm_num
  unfold container_valid
  rw [h24]
  by_cases h1 : n > 2 ^ 24 <;> by_cases h2 : isB f <;> simp [h1, h2] <;> omega

/-- Witness for claim C2 at concrete inputs. -/
theorem container_valid_characterization_witness :
    container_valid (fun _ => true) 4096 5 = false ∧
    container_valid (fun _ => false) 4096 5 = true :=
  ⟨(container_valid_characterization (fun _ => true) 4096 5).2.1 rfl,
   (container_valid_characterization (fun _ => false) 4096 5).2.2.mpr (by decide)⟩

/-- Claim C3: the growable-array adapter's element count is the reported size
multiplied by the internal element width (4 bytes, the `int` instantiation)
and divided by the real element size. -/
theorem Any_vector_el_count_formula :
    ∀ (v : VectorRepr) (el_size : Nat),
    Any_vector_el_count v el_size = Any_vector_size v * 4 / el_size := by
  intro v el_size
  rfl

/-- Claim C5: the growable-array adapter reports invalid every instance whose
reported size exceeds its reported capacity, and every instance whose
front-element address exceeds its back-element address. -/
theorem Any_vector_valid_rejects_corrupt :
    ∀ (isBogus : Nat → Bool) (v : VectorRepr) (el_size : Nat),
    (Any_vector_size v > Any_vector_capacity v →
      Any_vector_valid isBogus v el_size = false) ∧
    (Any_vector_front v > Any_vector_back v →
      Any_vector_valid isBogus v el_size = false) := by
  intro isB v el
  refine ⟨fun h => ?_, fun h => ?_⟩ <;>
    · simp only [Any_vector_valid]
      repeat' split
      all_goals first | rfl | omega

/-- Witness for claim C5 on concrete corrupted vectors. -/
theorem Any_vector_valid_rejects_corrupt_witness :
    Any_vector_valid (fun _ => false) vecBadCap 4 = false ∧
    Any_vector_valid (fun _ => false) vecBadFront 4 = false :=
  ⟨(Any_vector_valid_rejects_corrupt (fun _ => false) vecBadCap 4).1 (by decide),
   (Any_vector_valid_rejects_corrupt (fun _ => false) vecBadFront 4).2 (by decide)⟩

/-- The code's left-descent loop computes the leftmost node in the sense of
the specification. -/
theorem Any_map_subtree_min_eq :
    ∀ (h : TreeHeap) (el_size f p : Nat),
    Any_map_subtree_min h el_size f p =
      inorderLeftmost h (fun q => Any_map_Isnil h q el_size) f p := by
  intro h el f
  induction f with
  | zero => intro p; rfl
  | succ f ih =>
    intro p
    simp only [Any_map_subtree_min, inorderLeftmost]
    rcases Bool.eq_false_or_eq_true (Any_map_Isnil h ((h p).left) el) with hb | hb <;>
      simp [hb, ih]

/-- The code's parent-climb loop computes the nearest left-subtree ancestor in
the sense of the specification. -/
theorem Any_map_climb_eq :
    ∀ (h : TreeHeap) (el_size f p : Nat),
    Any_map_climb h el_size f p =
      inorderClimb h (fun q => Any_map_Isnil h q el_size) f p := by
  intro h el f
  induction f with
  | zero => intro p; rfl
  | succ f ih =>
    intro p
    simp only [Any_map_climb, inorderClimb]
    by_cases hb : Any_map_Isnil h ((h p).parent) el = false ∧ p = (h ((h p).parent)).right
    · rw [if_pos hb, if_pos hb, ih]
    · rw [if_neg hb, if_neg hb]

/-- Claim C4: the map iterator's advance consults the end-sentinel flag first
and leaves the cursor unchanged on the end sentinel; otherwise it moves to the
in-order successor: the leftmost node of the right subtree when that subtree
is not the sentinel, else the nearest ancestor of which the current node lies
in the left subtree, reached by climbing parent links while the current node
is its parent's right child. -/
theorem Any_map_advance_inorder :
    ∀ (h : TreeHeap) (el_size fuel ptr : Nat),
    (Any_map_Isnil h ptr el_size = true → Any_map_advance h el_size fuel ptr = ptr) ∧
    Any_map_advance h el_size fuel ptr =
      inorderSuccessor h (fun q => Any_map_Isnil h q el_size) fuel ptr := by
  intro h el f p
  constructor
  · intro hnil
    unfold Any_map_advance
    rw [if_pos hnil]
  · unfold Any_map_advance inorderSuccessor
    by_cases h1 : Any_map_Isnil h p el = true
    · simp [h1]
    · by_cases h2 : Any_map_Isnil h ((h p).right) el = false <;>
        simp [h1, h2, Any_map_subtree_min_eq, Any_map_climb_eq]

/-- Witness for claim C4 on the concrete three-node tree: the sentinel stays
put, and an inner node advances per the in-order successor description. -/
theorem Any_map_advance_inorder_witness :
    Any_map_advance heapEx 8 5 0 = 0 ∧
    Any_map_advance heapEx 8 5 2 =
      inorderSuccessor heapEx (fun q => Any_map_Isnil heapEx q 8) 5 2 :=
  ⟨(Any_map_advance_inorder heapEx 8 5 0).1 (by decide),
   (Any_map_advance_inorder heapEx 8 5 2).2⟩

/-- Amended claim C9: the FIFO-queue and stack adapters alias the deque
adapter and the multimap/multiset adapters alias map/set for validity, element
count and the begin cursor, with no additional checks; the iteration step the
dispatcher selects for the aliases is however the primary template, not the
aliased kind's element-size-aware specialization (see
`stl_iterator_alias_step_mismatch`). -/
theorem alias_adapters_agree_except_step :
    ∀ (isBogus : Nat → Bool) (b : Blob) (el_size : Nat),
    (Any_queue_valid isBogus b.asDeque el_size = Any_deque_valid isBogus b.asDeque el_size ∧
     Any_queue_el_count b.asDeque el_size = Any_deque_el_count b.asDeque el_size ∧
     beginFor Kind.queue b = beginFor Kind.deque b) ∧
    (Any_stack_valid isBogus b.asDeque el_size = Any_deque_valid isBogus b.asDeque el_size ∧
     Any_stack_el_count b.asDeque el_size = Any_deque_el_count b.asDeque el_size ∧
     beginFor Kind.stack b = beginFor Kind.deque b) ∧
    (Any_multimap_valid isBogus b.asMap el_size = Any_map_valid isBogus b.asMap el_size ∧
     Any_multimap_el_count b.asMap el_size = Any_map_el_count b.asMap el_size ∧
     beginFor Kind.multimap b = beginFor Kind.map b) ∧
    (Any_multiset_valid isBogus b.asSet el_size = Any_set_valid isBogus b.asSet el_size ∧
     Any_multiset_el_count b.asSet el_size = Any_set_el_count b.asSet el_size ∧
     beginFor Kind.multiset b = beginFor Kind.set b) := by
  intro isB b el
  exact ⟨⟨rfl, rfl, rfl⟩, ⟨rfl, rfl, rfl⟩, ⟨rfl, rfl, rfl⟩, ⟨rfl, rfl, rfl⟩⟩

/-- Counterexample to claim C9 as stated: iteration behaviour is not equal.
The step function the dispatcher selects for the FIFO-queue alias is the
primary template (4-byte native dereference), while the deque adapter gets the
element-size-aware specialization; on the same cursor with element size 8 they
yield different element addresses (1004 versus 1008 on `dequeEx`). -/
theorem stl_iterator_alias_step_mismatch :
    (stepFor 5 Kind.queue (Cursor.deq dequeEx 1) 8).map Prod.fst ≠
    (stepFor 5 Kind.deque (Cursor.deq dequeEx 1) 8).map Prod.fst := by
  decide

/-- Claim C1: a type name matching no pattern-table entry yields the
UnknownKind code with the out-parameters untouched and a result independent of
the blob (no access to the container memory); a match whose adapter validation
fails yields the InvalidContents code; a match whose validation succeeds
yields 0. -/
theorem stl_get_container_info_codes :
    ∀ (F : Nat) (mw : String → String → Bool) (isBogus : Nat → Bool)
      (type_name : String) (blob : Blob) (el_size : Nat) (outs0 : Outputs),
    (patternTable.find? (fun e => mw type_name e.2) = none →
      stl_get_container_info F mw isBogus type_name blob el_size outs0 =
        (STL_CNT_UNKNOWN, outs0)) ∧
    (∀ e, patternTable.find? (fun x => mw type_name x.2) = some e →
      (validFor isBogus e.1 blob el_size = false →
        (stl_get_container_info F mw isBogus type_name blob el_size outs0).1 =
          STL_CNT_INVALID) ∧
      (validFor isBogus e.1 blob el_size = true →
        (stl_get_container_info F mw isBogus type_name blob el_size outs0).1 = 0)) := by
  intro F mw isB name b el o0
  constructor
  · intro hnone
    unfold stl_get_container_info
    rw [hnone]
  · intro e he
    constructor <;> intro hv <;> unfold stl_get_container_info <;> rw [he] <;>
      simp [get_container_info, hv]

/-- Witness for claim C1: the three result codes at concrete inputs. -/
theorem stl_get_container_info_codes_witness :
    stl_get_container_info 5 (fun _ _ => false) (fun _ => false) "unknown" blobEx 4 outs0Ex =
      (STL_CNT_UNKNOWN, outs0Ex) ∧
    (stl_get_container_info 5 (fun _ p => p == "std::vector<*>") (fun _ => true) "v" blobEx 4
        outs0Ex).1 = STL_CNT_INVALID ∧
    (stl_get_container_info 5 (fun _ p => p == "std::vector<*>") (fun _ => false) "v" blobEx 4
        outs0Ex).1 = 0 :=
  ⟨(stl_get_container_info_codes 5 (fun _ _ => false) (fun _ => false) "unknown" blobEx 4
      outs0Ex).1 (by decide),
   ((stl_get_container_info_codes 5 (fun _ p => p == "std::vector<*>") (fun _ => true) "v" blobEx
      4 outs0Ex).2 (Kind.vector, "std::vector<*>") (by decide)).1 (by decide),
   ((stl_get_container_info_codes 5 (fun _ p => p == "std::vector<*>") (fun _ => false) "v" blobEx
      4 outs0Ex).2 (Kind.vector, "std::vector<*>") (by decide)).2 (by decide)⟩

/-- Claim C10: when the type name is handled but validation fails, the
out-parameters are not left unchanged: the dispatcher returns the
InvalidContents code together with the element count, step function and begin
cursor computed from the (possibly garbage) blob. -/
theorem stl_get_container_info_invalid_outputs :
    ∀ (F : Nat) (mw : String → String → Bool) (isBogus : Nat → Bool)
      (type_name : String) (blob : Blob) (el_size : Nat) (outs0 : Outputs)
      (e : Kind × String),
    patternTable.find? (fun x => mw type_name x.2) = some e →
    validFor isBogus e.1 blob el_size = false →
    (stl_get_container_info F mw isBogus type_name blob el_size outs0).1 = STL_CNT_INVALID ∧
    (stl_get_container_info F mw isBogus type_name blob el_size outs0).2 =
      { el_count := elCountFor e.1 blob el_size, step := stepFor F e.1,
        cursor := beginFor e.1 blob } := by
  intro F mw isB name b el o0 e he hv
  unfold stl_get_container_info
  rw [he]
  simp [get_container_info, hv]

/-- Witness for claim C10: a garbage blob classified as a vector yields the
InvalidContents code, yet the outputs hold the blob-derived values (element
count 2 from the blob, not the stale 999). -/
theorem stl_get_container_info_invalid_outputs_witness :
    (stl_get_container_info 5 (fun _ p => p == "std::vector<*>") (fun _ => true) "w" blobEx 4
        outs0Ex).1 = STL_CNT_INVALID ∧
    (stl_get_container_info 5 (fun _ p => p == "std::vector<*>") (fun _ => true) "w" blobEx 4
        outs0Ex).2 =
      { el_count := elCountFor Kind.vector blobEx 4, step := stepFor 5 Kind.vector,
        cursor := beginFor Kind.vector blobEx } :=
  stl_get_container_info_invalid_outputs 5 (fun _ p => p == "std::vector<*>") (fun _ => true) "w"
    blobEx 4 outs0Ex (Kind.vector, "std::vector<*>") (by decide) (by decide)

end DebugStl
